import Mathlib

/-!
Verification development for the AI-Chat LINE chatbot repository.

This file gives a shallow embedding, in Lean 4, of the message-routing
and response-synthesis core of the chatbot:

* the request queue and sequential drain worker of `ChatbotService`
  (`addToQueue` / `processMessageQueue`),
* the user-session sweep (`cleanupExpiredSessions`),
* the keyword matcher of `GoogleSheetsService` (`findMatchingKeyword`),
* the quota-aware retry loop of `GeminiService.generateResponse`,
* the cached document loader of `GoogleDocsService`
  (`getDocumentContent` / `_loadDocumentContent`),
* the confidence-threshold decision pipeline of
  `ChatbotService.processMessageDirect`, and
* the clickable-link formatter (`formatClickableLinks`).

JavaScript strings are modelled as Lean `String` (with helper
functions reproducing `includes`, `trim`, `toLowerCase`,
`split(/\s+/)`), JS numbers carrying scores as `ℚ`, timestamps as
`Int`, and the single-threaded event loop as a labelled transition
system whose atomic steps are the synchronous code runs between
`await` points.
-/

/-! ## String helpers (JS semantics) -/

/-- Boolean prefix test on character lists. -/
def isPrefixList : List Char → List Char → Bool
  | [], _ => true
  | _ :: _, [] => false
  | a :: as, b :: bs => a == b && isPrefixList as bs

/-- Substring containment on character lists: JS `hay.includes(needle)`. -/
def containsSub : List Char → List Char → Bool
  | hay, needle =>
    isPrefixList needle hay ||
      (match hay with
       | [] => false
       | _ :: t => containsSub t needle)

/-- JS `hay.includes(needle)` on strings. -/
def strIncludes (hay needle : String) : Bool :=
  containsSub hay.toList needle.toList

/-- JS `String.prototype.toLowerCase` (ASCII-accurate; Thai characters
have no case and are unaffected). -/
def jsToLower (s : String) : String :=
  String.mk (s.toList.map Char.toLower)

/-- JS `String.prototype.trim` (whitespace removed at both ends). -/
def jsTrim (s : String) : String :=
  String.mk
    (((s.toList.dropWhile Char.isWhitespace).reverse.dropWhile
      Char.isWhitespace).reverse)

/-- Lowercase-trim normalization used throughout the matcher:
`userMessage.toLowerCase().trim()`. -/
def jsNormalize (s : String) : String :=
  jsTrim (jsToLower s)

/-! ## Session registry: `ChatbotService.cleanupExpiredSessions`

Sessions are `(userId, timestamp)` pairs; `sessionTimeout` is
`30 * 60 * 1000` ms as set in the `ChatbotService` constructor. -/

/-- Session timeout in milliseconds: `this.sessionTimeout = 30 * 60 * 1000`. -/
def sessionTimeout : Int := 30 * 60 * 1000

/-- Periodic sweep `cleanupExpiredSessions`: deletes every session with
`now - session.timestamp > this.sessionTimeout` (strict comparison in the
source), keeping the rest. -/
def cleanupExpiredSessions (now : Int) (sessions : List (String × Int)) :
    List (String × Int) :=
  sessions.filter (fun p => decide (now - p.2 ≤ sessionTimeout))

/-- Lazy lookup `getUserSession`: returns the session only while
`Date.now() - session.timestamp < this.sessionTimeout`. -/
def getUserSession (now : Int) (sessions : List (String × Int))
    (userId : String) : Option Int :=
  match sessions.lookup userId with
  | some ts => if now - ts < sessionTimeout then some ts else none
  | none => none

/-! ## Request sequencer: `addToQueue` / `processMessageQueue`

State of the queueing layer of `ChatbotService`.  The event loop is
single threaded; each transition below is one synchronous run between
`await` points.  `inFlight` records the `processMessageDirect`
invocations that have started and not yet completed — the source
intends there to be at most one, which is exactly what we prove, so the
type deliberately allows several.  `admitted`, `served`, `rejected` and
`completed` are ghost logs used to state ordering properties. -/

/-- Queue entry: the `userId`/`message` pair pushed by `addToQueue`. -/
structure QReq where
  userId : String
  message : String
deriving DecidableEq, Repr

/-- Queue bound: `this.maxQueueSize = 100`. -/
def maxQueueSize : Nat := 100

/-- Static apology resolved when the queue is full. -/
def busyApology : String :=
  "ขออภัยค่ะ ระบบยุ่งอยู่ กรุณาลองใหม่อีกครั้งในอีกสักครู่"

/-- State of the queueing layer between event-loop turns. -/
structure SeqState where
  queue : List QReq
  isProcessing : Bool
  inFlight : List QReq
  admitted : List QReq
  served : List QReq
  rejected : List QReq
  completed : List (QReq × Bool)
deriving DecidableEq, Repr

/-- Initial state set up in the `ChatbotService` constructor. -/
def initSeqState : SeqState :=
  { queue := [], isProcessing := false, inFlight := [],
    admitted := [], served := [], rejected := [], completed := [] }

/-- Synchronous prefix of `processMessageQueue` up to the first `await`:
the `if (this.isProcessing) return` guard, setting the flag, and — when
the queue is non-empty — shifting the head and starting its
`processMessageDirect` call. With an empty queue the `while` body never
runs and the flag is reset at once. -/
def startDrain (s : SeqState) : SeqState :=
  if s.isProcessing then s
  else
    match s.queue with
    | [] => { s with isProcessing := false }
    | h :: t =>
      { s with isProcessing := true, queue := t,
               inFlight := s.inFlight ++ [h], served := s.served ++ [h] }

/-- Synchronous body of `addToQueue`: reject with the static apology when
`messageQueue.length >= maxQueueSize`, otherwise push the request and, if
no worker is draining, start `processMessageQueue`.  The second component
is the immediately delivered resolution, when there is one. -/
def addToQueue (s : SeqState) (r : QReq) : SeqState × Option String :=
  if s.queue.length ≥ maxQueueSize then
    ({ s with rejected := s.rejected ++ [r] }, some busyApology)
  else if s.isProcessing then
    ({ s with queue := s.queue ++ [r], admitted := s.admitted ++ [r] }, none)
  else
    (startDrain { s with queue := s.queue ++ [r], admitted := s.admitted ++ [r] },
     none)

/-- Removal of the first occurrence of a request from a list (the
invocation that just settled leaves `inFlight`). -/
def removeReq (r : QReq) : List QReq → List QReq
  | [] => []
  | x :: xs => if x = r then xs else x :: removeReq r xs

/-- Resumption of the drain loop when the awaited `processMessageDirect`
for `r` settles (`ok = true`: the promise resolved; `ok = false`: it
rejected — both paths continue the `while` loop): deliver the result,
then either shift and start the next request or clear `isProcessing`
and exit. -/
def completeStep (s : SeqState) (r : QReq) (ok : Bool) : SeqState :=
  match s.queue with
  | [] =>
    { s with inFlight := removeReq r s.inFlight,
             completed := s.completed ++ [(r, ok)],
             isProcessing := false }
  | h :: t =>
    { s with inFlight := removeReq r s.inFlight ++ [h],
             completed := s.completed ++ [(r, ok)],
             queue := t, served := s.served ++ [h] }

/-- One event-loop turn of the queueing layer: an `addToQueue` call, a
(possibly spurious) direct `processMessageQueue` call, or the completion
of an in-flight `processMessageDirect`. -/
inductive SeqStep : SeqState → SeqState → Prop
  | enqueue (s : SeqState) (r : QReq) : SeqStep s (addToQueue s r).1
  | drain (s : SeqState) : SeqStep s (startDrain s)
  | complete (s : SeqState) (r : QReq) (ok : Bool) (h : r ∈ s.inFlight) :
      SeqStep s (completeStep s r ok)

/-- States reachable from the constructor's initial state. -/
inductive SeqReachable : SeqState → Prop
  | init : SeqReachable initSeqState
  | step {s s' : SeqState} : SeqReachable s → SeqStep s s' → SeqReachable s'

/-- Inductive invariant of the queueing layer: at most one
`processMessageDirect` in flight, the flag tracks it, the ghost log of
admitted requests decomposes as served-then-pending, and the pending
queue respects the bound. -/
def SeqInv (s : SeqState) : Prop :=
  s.inFlight.length ≤ 1 ∧
  (s.isProcessing = false → s.inFlight = []) ∧
  s.admitted = s.served ++ s.queue ∧
  s.queue.length ≤ maxQueueSize

lemma isProcessing_false_of_not {s : SeqState} (hp : ¬s.isProcessing = true) :
    s.isProcessing = false := by
  revert hp
  cases s.isProcessing <;> simp

lemma seqInv_startDrain {s : SeqState} (h : SeqInv s) : SeqInv (startDrain s) := by
  obtain ⟨h1, h2, h3, h4⟩ := h
  unfold startDrain
  split
  · exact ⟨h1, h2, h3, h4⟩
  · next hp =>
    have hpf : s.isProcessing = false := isProcessing_false_of_not hp
    split
    · next hq =>
      exact ⟨h1, fun _ => h2 hpf, h3, h4⟩
    · next a t hq =>
      have hif : s.inFlight = [] := h2 hpf
      refine ⟨by simp [hif], by simp, ?_, ?_⟩
      · rw [h3, hq]
        simp
      · have h4q := h4
        rw [hq] at h4q
        simp only [List.length_cons] at h4q
        show t.length ≤ maxQueueSize
        omega

lemma seqInv_addToQueue {s : SeqState} (r : QReq) (h : SeqInv s) :
    SeqInv (addToQueue s r).1 := by
  obtain ⟨h1, h2, h3, h4⟩ := h
  unfold addToQueue
  split
  · exact ⟨h1, h2, h3, h4⟩
  · next hfull =>
    have hlen : s.queue.length < maxQueueSize := by
      simpa using hfull
    have hs1 : SeqInv { s with queue := s.queue ++ [r],
                               admitted := s.admitted ++ [r] } := by
      refine ⟨h1, h2, ?_, ?_⟩
      · simp [h3]
      · simp
        omega
    split
    · exact hs1
    · exact seqInv_startDrain hs1

lemma removeReq_singleton (r : QReq) : removeReq r [r] = [] := by
  simp [removeReq]

lemma inFlight_singleton {s : SeqState} {r : QReq}
    (h1 : s.inFlight.length ≤ 1) (hmem : r ∈ s.inFlight) :
    s.inFlight = [r] := by
  cases hf : s.inFlight with
  | nil =>
    rw [hf] at hmem
    cases hmem
  | cons a t =>
    rw [hf] at h1
    simp only [List.length_cons] at h1
    have ht : t = [] := List.eq_nil_of_length_eq_zero (by omega)
    rw [hf, ht] at hmem
    simp at hmem
    simp [hmem, ht]

lemma seqInv_completeStep {s : SeqState} {r : QReq} (ok : Bool)
    (hmem : r ∈ s.inFlight) (h : SeqInv s) : SeqInv (completeStep s r ok) := by
  obtain ⟨h1, h2, h3, h4⟩ := h
  have hone : s.inFlight = [r] := inFlight_singleton h1 hmem
  unfold completeStep
  split
  · next hq =>
    refine ⟨by simp [hone, removeReq_singleton], fun _ => by
      simp [hone, removeReq_singleton], ?_, h4⟩
    exact h3
  · next a t hq =>
    refine ⟨by simp [hone, removeReq_singleton], ?_, ?_, ?_⟩
    · intro hcontr
      have hproc : s.isProcessing = true := by
        by_contra hc
        have : s.inFlight = [] := h2 (isProcessing_false_of_not hc)
        rw [hone] at this
        cases this
      rw [hproc] at hcontr
      cases hcontr
    · rw [h3, hq]
      simp
    · have h4q := h4
      rw [hq] at h4q
      simp only [List.length_cons] at h4q
      show t.length ≤ maxQueueSize
      omega

lemma seqInv_reachable {s : SeqState} (h : SeqReachable s) : SeqInv s := by
  induction h with
  | init =>
    refine ⟨by simp [initSeqState], by simp [initSeqState], ?_, ?_⟩
    · simp [initSeqState]
    · simp [initSeqState, maxQueueSize]
  | step _ hstep ih =>
    cases hstep with
    | enqueue r => exact seqInv_addToQueue r ih
    | drain => exact seqInv_startDrain ih
    | complete r ok hmem => exact seqInv_completeStep ok hmem ih

/-- C1 — In every reachable interleaving of the event loop, at most one
`processMessageDirect` invocation started by the drain worker is in
flight at any instant, and while the worker is draining
(`isProcessing = true`) a call to `processMessageQueue` is a no-op: a
second drain loop never starts while one is running. -/
theorem c1_single_handle_in_flight (s : SeqState) (h : SeqReachable s) :
    s.inFlight.length ≤ 1 ∧
    (s.isProcessing = true → startDrain s = s) := by
  refine ⟨(seqInv_reachable h).1, ?_⟩
  intro hp
  unfold startDrain
  simp [hp]

/-- Sample requests for concrete witnesses. -/
def reqA : QReq := { userId := "a", message := "1" }

/-- Second sample request. -/
def reqB : QReq := { userId := "b", message := "2" }

/-- Third sample request. -/
def reqC : QReq := { userId := "c", message := "3" }

/-- Witness for C1: a concrete reachable state — one request enqueued
from the initial state — satisfies the mutual-exclusion bound. -/
theorem c1_single_handle_in_flight_witness :
    ((addToQueue initSeqState reqA).1).inFlight.length ≤ 1 ∧
    (((addToQueue initSeqState reqA).1).isProcessing = true →
      startDrain (addToQueue initSeqState reqA).1 =
        (addToQueue initSeqState reqA).1) :=
  c1_single_handle_in_flight _
    (SeqReachable.step SeqReachable.init (SeqStep.enqueue initSeqState reqA))

/-- C2 — Admission control: a call to `addToQueue` with the pending
queue at (or beyond) `maxQueueSize` leaves the whole queueing state
unchanged except for the ghost rejection log and immediately resolves
the caller with the fixed apology string; consequently in every
reachable state the pending queue never exceeds `maxQueueSize`. -/
theorem c2_admission_control :
    (∀ (s : SeqState) (r : QReq), s.queue.length ≥ maxQueueSize →
      addToQueue s r = ({ s with rejected := s.rejected ++ [r] }, some busyApology)) ∧
    (∀ s : SeqState, SeqReachable s → s.queue.length ≤ maxQueueSize) := by
  constructor
  · intro s r hfull
    unfold addToQueue
    simp [hfull]
  · intro s h
    exact (seqInv_reachable h).2.2.2

/-- State with a full pending queue, used by the C2 witness. -/
def fullSeqState : SeqState :=
  { initSeqState with queue := List.replicate 100 reqA }

/-- Witness for C2: a queue filled to exactly `maxQueueSize` rejects the
next request with the apology, and the initial state respects the bound. -/
theorem c2_admission_control_witness :
    addToQueue fullSeqState reqB =
      ({ fullSeqState with rejected := fullSeqState.rejected ++ [reqB] },
       some busyApology) ∧
    initSeqState.queue.length ≤ maxQueueSize :=
  ⟨c2_admission_control.1 fullSeqState reqB
      (by simp [fullSeqState, initSeqState, maxQueueSize]),
   c2_admission_control.2 initSeqState SeqReachable.init⟩

/-- C3 — FIFO service and error isolation: in every reachable state the
admitted requests are exactly the requests already handed to
`processMessageDirect`, in enqueue order, followed by the still-pending
queue (so the worker serves strictly in enqueue order); and when an
in-flight request settles by rejection, the next pending request is
started at once — a failure never stops the drain. -/
theorem c3_fifo_and_error_isolation (s : SeqState) (h : SeqReachable s) :
    s.admitted = s.served ++ s.queue ∧
    (∀ (r a : QReq) (t : List QReq), r ∈ s.inFlight → s.queue = a :: t →
      (completeStep s r false).served = s.served ++ [a] ∧
      (completeStep s r false).queue = t ∧
      (completeStep s r false).inFlight = [a]) := by
  obtain ⟨h1, h2, h3, h4⟩ := seqInv_reachable h
  refine ⟨h3, ?_⟩
  intro r a t hmem hq
  have hone : s.inFlight = [r] := inFlight_singleton h1 hmem
  unfold completeStep
  rw [hq]
  simp [hone, removeReq_singleton]

/-- State after enqueueing `reqA` then `reqB` from the initial state,
used by the C3 witness. -/
def twoReqState : SeqState :=
  (addToQueue (addToQueue initSeqState reqA).1 reqB).1

lemma twoReqState_reachable : SeqReachable twoReqState :=
  SeqReachable.step
    (SeqReachable.step SeqReachable.init (SeqStep.enqueue initSeqState reqA))
    (SeqStep.enqueue (addToQueue initSeqState reqA).1 reqB)

/-- Witness for C3: the concrete state with one admitted in-flight
request and one pending request satisfies both conjuncts. -/
theorem c3_fifo_and_error_isolation_witness :
    twoReqState.admitted = twoReqState.served ++ twoReqState.queue ∧
    (completeStep twoReqState reqA false).served =
      twoReqState.served ++ [reqB] := by
  have hthm := c3_fifo_and_error_isolation _ twoReqState_reachable
  refine ⟨hthm.1, ?_⟩
  have hmem : reqA ∈ twoReqState.inFlight := by
    simp [twoReqState, addToQueue, initSeqState, startDrain, maxQueueSize]
  have hq : twoReqState.queue = [reqB] := by
    simp [twoReqState, addToQueue, initSeqState, startDrain, maxQueueSize]
  exact (hthm.2 reqA reqB [] hmem hq).1

/-! ## C7 — session sweep -/

/-- C7 counterexample — the claim says the sweep deletes every session
with `now - lastTouchedAt ≥ sessionTimeout`, but the source tests
`now - session.timestamp > this.sessionTimeout` strictly: a session
whose age is exactly `sessionTimeout` (30 minutes) survives the sweep. -/
theorem c7_sweep_counterexample :
    cleanupExpiredSessions 1800000 [("u", 0)] = [("u", 0)] ∧
    (1800000 : Int) - 0 ≥ sessionTimeout := by
  constructor
  · decide
  · decide

/-- C7 amended — the sweep deletes exactly those sessions whose age is
strictly greater than `sessionTimeout`: a session survives the sweep iff
it was present and `now - lastTouchedAt ≤ sessionTimeout`, so after a
sweep no session strictly past the timeout remains held (one at exactly
the timeout does remain). -/
theorem c7_sweep_deletes_strictly_older (now : Int)
    (sessions : List (String × Int)) (u : String) (ts : Int) :
    (u, ts) ∈ cleanupExpiredSessions now sessions ↔
      ((u, ts) ∈ sessions ∧ now - ts ≤ sessionTimeout) := by
  unfold cleanupExpiredSessions
  simp [List.mem_filter]

/-- Witness for the amended C7: on a concrete map with one fresh and one
expired session, membership after the sweep matches the characterization. -/
theorem c7_sweep_deletes_strictly_older_witness :
    ((("fresh", (1000000 : Int)) ∈
        cleanupExpiredSessions 2000000 [("fresh", 1000000), ("old", 0)]) ↔
      ((("fresh", (1000000 : Int)) ∈
          ([("fresh", 1000000), ("old", 0)] : List (String × Int))) ∧
        (2000000 : Int) - 1000000 ≤ sessionTimeout)) :=
  c7_sweep_deletes_strictly_older 2000000 [("fresh", 1000000), ("old", 0)]
    "fresh" 1000000

/-! ## C6 — `GeminiService.generateResponse` retry loop

The LLM provider is an oracle mapping the attempt number to the outcome
of `model.generateContent`: either generated text or a thrown error
carrying a message.  The source recognises a quota error by
`error.message.includes('429')`. -/

/-- Retry bound: `const maxRetries = 3`. -/
def maxRetries : Nat := 3

/-- Base backoff: `const retryDelay = 2000` milliseconds; the wait before
the retry after attempt `n` is `retryDelay * n`. -/
def retryDelayMs : Nat := 2000

/-- Error message thrown once the quota retries are exhausted. -/
def quotaExceededMsg : String :=
  "Gemini API quota exceeded. Please try again later."

/-- Outcome of one `model.generateContent` call. -/
inductive GenOutcome where
  | success (text : String)
  | failure (errMsg : String)
deriving DecidableEq, Repr

/-- Result of `generateResponse`: returned text, a thrown error, or the
(unreachable) normal exit of the `for` loop, which in JS would return
`undefined`. -/
inductive GenResult where
  | ok (text : String)
  | threw (msg : String)
  | loopFellThrough
deriving DecidableEq, Repr

/-- Body of the `for (attempt = 1; attempt <= maxRetries; attempt++)`
loop of `generateResponse`; the second component is the list of backoff
delays awaited, in order. -/
def genLoop (oracle : Nat → GenOutcome) (attempt : Nat) : GenResult × List Nat :=
  if _h1 : maxRetries < attempt then (.loopFellThrough, [])
  else
    match oracle attempt with
    | .success t => (.ok (jsTrim t), [])
    | .failure e =>
      if strIncludes e "429" = true then
        if h2 : attempt < maxRetries then
          ((genLoop oracle (attempt + 1)).1,
            retryDelayMs * attempt :: (genLoop oracle (attempt + 1)).2)
        else (.threw quotaExceededMsg, [])
      else (.threw e, [])
termination_by maxRetries + 1 - attempt
decreasing_by omega

/-- Entry point `generateResponse`, starting at attempt 1. -/
def generateResponse (oracle : Nat → GenOutcome) : GenResult × List Nat :=
  genLoop oracle 1

lemma genLoop_success {oracle : Nat → GenOutcome} {attempt : Nat} {t : String}
    (hle : ¬ maxRetries < attempt) (h : oracle attempt = .success t) :
    genLoop oracle attempt = (.ok (jsTrim t), []) := by
  rw [genLoop]
  simp [hle, h]

lemma genLoop_nonquota {oracle : Nat → GenOutcome} {attempt : Nat} {e : String}
    (hle : ¬ maxRetries < attempt) (h : oracle attempt = .failure e)
    (hq : ¬ strIncludes e "429" = true) :
    genLoop oracle attempt = (.threw e, []) := by
  rw [genLoop]
  simp [hle, h, hq]

lemma genLoop_quota_retry {oracle : Nat → GenOutcome} {attempt : Nat} {e : String}
    (hlt : attempt < maxRetries) (h : oracle attempt = .failure e)
    (hq : strIncludes e "429" = true) :
    genLoop oracle attempt =
      ((genLoop oracle (attempt + 1)).1,
        retryDelayMs * attempt :: (genLoop oracle (attempt + 1)).2) := by
  rw [genLoop]
  have hle : ¬ maxRetries < attempt := by omega
  simp [hle, h, hq, hlt]

lemma genLoop_quota_last {oracle : Nat → GenOutcome} {e : String}
    (h : oracle maxRetries = .failure e) (hq : strIncludes e "429" = true) :
    genLoop oracle maxRetries = (.threw quotaExceededMsg, []) := by
  rw [genLoop]
  simp [h, hq]

/-- C6 — The retry policy of `generateResponse`: at most `maxRetries`
(3) calls are issued and the loop never falls through; the backoff
delays awaited before the k-th retry are `retryDelay * k` (2000 ms,
4000 ms — linearly increasing); a non-quota error on any attempt that
is actually reached (every earlier attempt failed with a quota error)
is propagated to the caller as-is, immediately, with no further retry
or delay; every call that was followed by a retry had failed with a
quota (429) error; and three quota failures in a row end in the thrown
quota-exceeded error. -/
theorem c6_generate_retry_policy (oracle : Nat → GenOutcome) :
    (generateResponse oracle).2.length + 1 ≤ maxRetries ∧
    (generateResponse oracle).1 ≠ .loopFellThrough ∧
    (generateResponse oracle).2 =
      (List.range (generateResponse oracle).2.length).map
        (fun i => retryDelayMs * (i + 1)) ∧
    (∀ k e, 1 ≤ k → k ≤ maxRetries →
      (∀ j, 1 ≤ j → j < k →
        ∃ ej, oracle j = .failure ej ∧ strIncludes ej "429" = true) →
      oracle k = .failure e → strIncludes e "429" = false →
      generateResponse oracle =
        (.threw e, (List.range (k - 1)).map (fun i => retryDelayMs * (i + 1)))) ∧
    (∀ k, 1 ≤ k → k ≤ (generateResponse oracle).2.length →
      ∃ e, oracle k = .failure e ∧ strIncludes e "429" = true) ∧
    ((∀ k, 1 ≤ k → k ≤ maxRetries →
        ∃ e, oracle k = .failure e ∧ strIncludes e "429" = true) →
      (generateResponse oracle).1 = .threw quotaExceededMsg) := by
  have hn1 : ¬ maxRetries < 1 := by simp [maxRetries]
  have hn2 : ¬ maxRetries < 2 := by simp [maxRetries]
  have hn3 : ¬ maxRetries < 3 := by simp [maxRetries]
  rcases h1 : oracle 1 with t1 | e1
  · -- first call succeeds
    have hres : generateResponse oracle = (.ok (jsTrim t1), []) :=
      genLoop_success hn1 h1
    rw [hres]
    refine ⟨by simp [maxRetries], by simp, by simp, ?_, ?_, ?_⟩
    · intro k e hk1 hk3 hpre hk hq
      have hk3n : k ≤ 3 := by simpa [maxRetries] using hk3
      interval_cases k
      · rw [h1] at hk
        cases hk
      · obtain ⟨ej, hej, _⟩ := hpre 1 (by omega) (by omega)
        rw [h1] at hej
        cases hej
      · obtain ⟨ej, hej, _⟩ := hpre 1 (by omega) (by omega)
        rw [h1] at hej
        cases hej
    · intro k hk1 hk2
      simp at hk2
      omega
    · intro hall
      obtain ⟨e, he, _⟩ := hall 1 (by omega) (by simp [maxRetries])
      rw [h1] at he
      cases he
  · by_cases q1 : strIncludes e1 "429" = true
    · -- first call is a quota failure: retry
      have hstep1 : generateResponse oracle =
          ((genLoop oracle 2).1, retryDelayMs * 1 :: (genLoop oracle 2).2) :=
        genLoop_quota_retry (by simp [maxRetries]) h1 q1
      rcases h2 : oracle 2 with t2 | e2
      · have hres : genLoop oracle 2 = (.ok (jsTrim t2), []) :=
          genLoop_success hn2 h2
        rw [hstep1, hres]
        refine ⟨by simp [maxRetries], by simp, ?_, ?_, ?_, ?_⟩
        · simp [List.range, List.range.loop, retryDelayMs]
        · intro k e hk1 hk3 hpre hk hq
          have hk3n : k ≤ 3 := by simpa [maxRetries] using hk3
          interval_cases k
          · rw [h1] at hk
            cases hk
            rw [q1] at hq
            cases hq
          · rw [h2] at hk
            cases hk
          · obtain ⟨ej, hej, _⟩ := hpre 2 (by omega) (by omega)
            rw [h2] at hej
            cases hej
        · intro k hk1 hk2
          simp at hk2
          have : k = 1 := by omega
          subst this
          exact ⟨e1, h1, q1⟩
        · intro hall
          obtain ⟨e, he, _⟩ := hall 2 (by omega) (by simp [maxRetries])
          rw [h2] at he
          cases he
      · by_cases q2 : strIncludes e2 "429" = true
        · -- second call also quota: retry once more
          have hstep2 : genLoop oracle 2 =
              ((genLoop oracle 3).1, retryDelayMs * 2 :: (genLoop oracle 3).2) :=
            genLoop_quota_retry (by simp [maxRetries]) h2 q2
          rcases h3 : oracle 3 with t3 | e3
          · -- third call succeeds
            have hres : genLoop oracle 3 = (.ok (jsTrim t3), []) :=
              genLoop_success hn3 h3
            rw [hstep1, hstep2, hres]
            refine ⟨by simp [maxRetries], by simp, ?_, ?_, ?_, ?_⟩
            · simp [List.range, List.range.loop, retryDelayMs]
            · intro k e hk1 hk3 hpre hk hq
              have hk3n : k ≤ 3 := by simpa [maxRetries] using hk3
              interval_cases k
              · rw [h1] at hk
                cases hk
                rw [q1] at hq
                cases hq
              · rw [h2] at hk
                cases hk
                rw [q2] at hq
                cases hq
              · rw [h3] at hk
                cases hk
            · intro k hk1 hk2
              simp at hk2
              interval_cases k
              · exact ⟨e1, h1, q1⟩
              · exact ⟨e2, h2, q2⟩
            · intro hall
              obtain ⟨e, he, _⟩ := hall 3 (by omega) (by simp [maxRetries])
              rw [h3] at he
              cases he
          · by_cases q3 : strIncludes e3 "429" = true
            · -- three quota failures: quota-exceeded thrown
              have hres : genLoop oracle 3 = (.threw quotaExceededMsg, []) :=
                genLoop_quota_last (by simpa [maxRetries] using h3) q3
              rw [hstep1, hstep2, hres]
              refine ⟨by simp [maxRetries], by simp, ?_, ?_, ?_, ?_⟩
              · simp [List.range, List.range.loop, retryDelayMs]
              · intro k e hk1 hk3 hpre hk hq
                have hk3n : k ≤ 3 := by simpa [maxRetries] using hk3
                interval_cases k
                · rw [h1] at hk
                  cases hk
                  rw [q1] at hq
                  cases hq
                · rw [h2] at hk
                  cases hk
                  rw [q2] at hq
                  cases hq
                · rw [h3] at hk
                  cases hk
                  rw [q3] at hq
                  cases hq
              · intro k hk1 hk2
                simp at hk2
                interval_cases k
                · exact ⟨e1, h1, q1⟩
                · exact ⟨e2, h2, q2⟩
              · intro _
                rfl
            · -- third call fails with a non-quota error: propagate
              have hres : genLoop oracle 3 = (.threw e3, []) :=
                genLoop_nonquota hn3 h3 q3
              rw [hstep1, hstep2, hres]
              refine ⟨by simp [maxRetries], by simp, ?_, ?_, ?_, ?_⟩
              · simp [List.range, List.range.loop, retryDelayMs]
              · intro k e hk1 hk3 hpre hk hq
                have hk3n : k ≤ 3 := by simpa [maxRetries] using hk3
                interval_cases k
                · rw [h1] at hk
                  cases hk
                  rw [q1] at hq
                  cases hq
                · rw [h2] at hk
                  cases hk
                  rw [q2] at hq
                  cases hq
                · rw [h3] at hk
                  cases hk
                  simp [List.range, List.range.loop, retryDelayMs]
              · intro k hk1 hk2
                simp at hk2
                interval_cases k
                · exact ⟨e1, h1, q1⟩
                · exact ⟨e2, h2, q2⟩
              · intro hall
                obtain ⟨e, he, hq⟩ := hall 3 (by omega) (by simp [maxRetries])
                rw [h3] at he
                cases he
                rw [hq] at q3
                cases q3 rfl
        · -- second call fails with a non-quota error: propagate
          have hres : genLoop oracle 2 = (.threw e2, []) :=
            genLoop_nonquota hn2 h2 q2
          rw [hstep1, hres]
          refine ⟨by simp [maxRetries], by simp, ?_, ?_, ?_, ?_⟩
          · simp [List.range, List.range.loop, retryDelayMs]
          · intro k e hk1 hk3 hpre hk hq
            have hk3n : k ≤ 3 := by simpa [maxRetries] using hk3
            interval_cases k
            · rw [h1] at hk
              cases hk
              rw [q1] at hq
              cases hq
            · rw [h2] at hk
              cases hk
              simp [List.range, List.range.loop, retryDelayMs]
            · obtain ⟨ej, hej, hqj⟩ := hpre 2 (by omega) (by omega)
              rw [h2] at hej
              cases hej
              rw [hqj] at q2
              cases q2 rfl
          · intro k hk1 hk2
            simp at hk2
            have : k = 1 := by omega
            subst this
            exact ⟨e1, h1, q1⟩
          · intro hall
            obtain ⟨e, he, hq⟩ := hall 2 (by omega) (by simp [maxRetries])
            rw [h2] at he
            cases he
            rw [hq] at q2
            cases q2 rfl
    · -- first call fails with a non-quota error: propagate immediately
      have hres : generateResponse oracle = (.threw e1, []) :=
        genLoop_nonquota hn1 h1 q1
      rw [hres]
      refine ⟨by simp [maxRetries], by simp, by simp, ?_, ?_, ?_⟩
      · intro k e hk1 hk3 hpre hk hq
        have hk3n : k ≤ 3 := by simpa [maxRetries] using hk3
        interval_cases k
        · rw [h1] at hk
          cases hk
          simp
        · obtain ⟨ej, hej, hqj⟩ := hpre 1 (by omega) (by omega)
          rw [h1] at hej
          cases hej
          rw [hqj] at q1
          cases q1 rfl
        · obtain ⟨ej, hej, hqj⟩ := hpre 1 (by omega) (by omega)
          rw [h1] at hej
          cases hej
          rw [hqj] at q1
          cases q1 rfl
      · intro k hk1 hk2
        simp at hk2
        omega
      · intro hall
        obtain ⟨e, he, hq⟩ := hall 1 (by omega) (by simp [maxRetries])
        rw [h1] at he
        cases he
        rw [hq] at q1
        cases q1 rfl

/-- Witness for C6: an oracle failing every attempt with a plain
network error makes `generateResponse` propagate that error at once,
with no retry and no delay. -/
theorem c6_generate_retry_policy_witness :
    generateResponse (fun _ => .failure "network down") =
      (.threw "network down", []) := by
  have h := (c6_generate_retry_policy (fun _ => .failure "network down")).2.2.2.1
    1 "network down" (by omega) (by decide)
    (fun j hj1 hj2 => absurd hj2 (by omega)) rfl (by decide)
  simpa using h

/-! ## C10 — `GoogleDocsService.getDocumentContent`

State of the docs service cache and loading lock; the external
`docs.documents.get` call plus text extraction is an oracle producing
either the extracted content or a thrown error message. -/

/-- Cache TTL: `this.cacheExpiry = 1 * 60 * 1000`. -/
def cacheExpiry : Int := 1 * 60 * 1000

/-- Mutable fields of `GoogleDocsService` touched by the loader.
`initialized` models `this.docs && this.docsId` being truthy;
`loadingPromise` models whether `this.loadingPromise` is non-null. -/
structure DocsState where
  initialized : Bool
  contentCache : Option String
  cacheTimestamp : Option Int
  isLoading : Bool
  loadingPromise : Bool
deriving DecidableEq, Repr

/-- Result of a `getDocumentContent` call: a returned string, a thrown
error, or joining an already-in-flight load (`await this.loadingPromise`). -/
inductive DocsResult where
  | value (content : String)
  | thrown (e : String)
  | joinedOngoing
deriving DecidableEq, Repr

/-- Truthiness of the cache check
`this.contentCache && this.cacheTimestamp && (now - ts) < cacheExpiry`
(an empty cached string or zero timestamp is falsy in JS). -/
def cacheValid (st : DocsState) (now : Int) : Bool :=
  match st.contentCache, st.cacheTimestamp with
  | some c, some ts => ¬ c = "" ∧ ¬ ts = 0 ∧ now - ts < cacheExpiry
  | _, _ => false

/-- Private `_loadDocumentContent`: on a successful fetch the snapshot is
replaced wholesale (`contentCache`, `cacheTimestamp`) and the content
returned; on a thrown fetch error the error is re-thrown before either
cache assignment runs, leaving both untouched. -/
def loadDocumentContent (st : DocsState) (fetch : Except String String)
    (now : Int) : DocsState × Except String String :=
  match fetch with
  | .ok content =>
    ({ st with contentCache := some content, cacheTimestamp := some now },
     .ok content)
  | .error e => (st, .error e)

/-- Public `getDocumentContent`: not-initialized guard, cache check,
join of an ongoing load, else take the lock, run
`_loadDocumentContent`, and in the `finally` clause reset `isLoading`
and `loadingPromise` whether the load succeeded or threw. -/
def getDocumentContent (st : DocsState) (forceRefresh : Bool) (now : Int)
    (fetch : Except String String) : DocsState × DocsResult :=
  if ¬ st.initialized then (st, .thrown "Google Docs service not initialized")
  else if ¬ forceRefresh ∧ cacheValid st now then
    (st, .value (st.contentCache.getD ""))
  else if st.isLoading ∧ st.loadingPromise then (st, .joinedOngoing)
  else
    match loadDocumentContent
        { st with isLoading := true, loadingPromise := true } fetch now with
    | (st2, .ok c) =>
      ({ st2 with isLoading := false, loadingPromise := false }, .value c)
    | (st2, .error e) =>
      ({ st2 with isLoading := false, loadingPromise := false }, .thrown e)

/-- C10 — When the external fetch fails inside `getDocumentContent` (the
service is initialized, the cache did not short-circuit, and no load is
already in flight), the error propagates to the caller and the previous
cache snapshot is untouched: `contentCache` and `cacheTimestamp` keep
their prior values, and the `isLoading`/`loadingPromise` lock is reset;
the lock is likewise reset when the fetch succeeds. -/
theorem c10_failed_refresh_keeps_snapshot (st : DocsState) (force : Bool)
    (now : Int) (e : String)
    (hinit : st.initialized = true)
    (hmiss : ¬ (¬ force ∧ cacheValid st now))
    (hfree : ¬ (st.isLoading ∧ st.loadingPromise)) :
    getDocumentContent st force now (.error e) =
      ({ st with isLoading := false, loadingPromise := false }, .thrown e) ∧
    (∀ fetch, ((getDocumentContent st force now fetch).1.isLoading = false ∧
      (getDocumentContent st force now fetch).1.loadingPromise = false)) := by
  constructor
  · unfold getDocumentContent
    simp only [hinit]
    rw [if_neg (by simp), if_neg hmiss, if_neg hfree]
    rfl
  · intro fetch
    unfold getDocumentContent
    simp only [hinit]
    rw [if_neg (by simp), if_neg hmiss, if_neg hfree]
    cases fetch with
    | ok c => exact ⟨rfl, rfl⟩
    | error e2 => exact ⟨rfl, rfl⟩

/-- Witness for C10: a concrete initialized state holding an old
snapshot keeps it across a failed forced refresh and ends unlocked. -/
theorem c10_failed_refresh_keeps_snapshot_witness :
    getDocumentContent
        { initialized := true, contentCache := some "old snapshot",
          cacheTimestamp := some 500, isLoading := false,
          loadingPromise := false } true 700000 (.error "fetch failed") =
      ({ initialized := true, contentCache := some "old snapshot",
         cacheTimestamp := some 500, isLoading := false,
         loadingPromise := false }, .thrown "fetch failed") :=
  (c10_failed_refresh_keeps_snapshot
    { initialized := true, contentCache := some "old snapshot",
      cacheTimestamp := some 500, isLoading := false,
      loadingPromise := false } true 700000 "fetch failed"
    rfl (by simp) (by simp)).1

/-! ## C4 — `processMessageDirect` source-attempt thresholds

The AI searches (`findBestAnswerWithAI`) are oracles returning the
parsed JSON match (or `null`); `processMessageDirectCore` is the
decision skeleton of `processMessageDirect` steps 2–4: which candidate
is accepted, on its way to formatting, and when the pipeline falls
through to the traditional-search fallback. -/

/-- Parsed result of `findBestAnswerWithAI` (the JSON object the model
returns). -/
structure AIMatch where
  keyword : String
  answer : String
  confidence : ℚ
  matchType : String
deriving DecidableEq, Repr

/-- Outcome of steps 2–4 of `processMessageDirect`: a Docs-backed answer
(passed to `formatDocsAnswer`), a Sheets-backed answer (returned tag-
stripped, unformatted), or the fall through to the traditional search
fallback of steps 4–6. -/
inductive PipeOutcome where
  | docsAnswer (m : AIMatch)
  | sheetsAnswer (m : AIMatch)
  | fallbackPath
deriving DecidableEq, Repr

/-- Step 4: the second Docs attempt, guarded by
`if (primarySource !== 'docs')`, accepting on `confidence > 60`. -/
def docsRetryStage (primarySource : String) (docsMatch : Option AIMatch) :
    PipeOutcome :=
  if ¬ primarySource = "docs" then
    match docsMatch with
    | some m => if m.confidence > 60 then .docsAnswer m else .fallbackPath
    | none => .fallbackPath
  else .fallbackPath

/-- Step 3: the Sheets attempt, accepting on `confidence > 70`, else
falling to step 4. -/
def sheetsStage (primarySource : String) (docsMatch sheetsMatch : Option AIMatch) :
    PipeOutcome :=
  match sheetsMatch with
  | some m =>
    if m.confidence > 70 then .sheetsAnswer m
    else docsRetryStage primarySource docsMatch
  | none => docsRetryStage primarySource docsMatch

/-- Steps 2–4 of `processMessageDirect`: when the primary source is
`'docs'` try Docs first (accept on `confidence > 60`), then Sheets
(accept on `confidence > 70`), then Docs again only if it was not
primary, else fall through. -/
def processMessageDirectCore (primarySource : String)
    (docsMatch sheetsMatch : Option AIMatch) : PipeOutcome :=
  if primarySource = "docs" then
    match docsMatch with
    | some m =>
      if m.confidence > 60 then .docsAnswer m
      else sheetsStage primarySource docsMatch sheetsMatch
    | none => sheetsStage primarySource docsMatch sheetsMatch
  else sheetsStage primarySource docsMatch sheetsMatch

lemma docsRetryStage_ne_sheets {p : String} {dm : Option AIMatch} {m : AIMatch} :
    docsRetryStage p dm ≠ .sheetsAnswer m := by
  unfold docsRetryStage
  split
  · cases dm with
    | none => simp
    | some m2 =>
      dsimp only
      split <;> simp
  · simp

lemma docsRetryStage_docs {p : String} {dm : Option AIMatch} {m : AIMatch}
    (h : docsRetryStage p dm = .docsAnswer m) :
    dm = some m ∧ m.confidence > 60 := by
  unfold docsRetryStage at h
  by_cases hp : p = "docs"
  · rw [if_neg (by simp [hp])] at h
    cases h
  · rw [if_pos hp] at h
    cases hdm : dm with
    | none =>
      rw [hdm] at h
      cases h
    | some m2 =>
      rw [hdm] at h
      dsimp only at h
      by_cases hc : m2.confidence > 60
      · rw [if_pos hc] at h
        cases h
        exact ⟨rfl, hc⟩
      · rw [if_neg hc] at h
        cases h

lemma docsRetryStage_accept {p : String} {dm : Option AIMatch} {m : AIMatch}
    (hp : ¬ p = "docs") (hdm : dm = some m) (hc : m.confidence > 60) :
    docsRetryStage p dm = .docsAnswer m := by
  unfold docsRetryStage
  rw [if_pos hp, hdm]
  dsimp only
  rw [if_pos hc]

lemma docsRetryStage_reject {p : String} {dm : Option AIMatch}
    (hbelow : ∀ m, dm = some m → m.confidence ≤ 60) :
    docsRetryStage p dm = .fallbackPath := by
  unfold docsRetryStage
  split
  · cases hdm : dm with
    | none => rfl
    | some m2 =>
      dsimp only
      rw [if_neg (not_lt.mpr (hbelow m2 hdm))]
  · rfl

lemma sheetsStage_sheets {p : String} {dm sm : Option AIMatch} {m : AIMatch}
    (h : sheetsStage p dm sm = .sheetsAnswer m) :
    sm = some m ∧ m.confidence > 70 := by
  unfold sheetsStage at h
  cases hsm : sm with
  | none =>
    rw [hsm] at h
    exact absurd h docsRetryStage_ne_sheets
  | some m2 =>
    rw [hsm] at h
    dsimp only at h
    by_cases hc : m2.confidence > 70
    · rw [if_pos hc] at h
      cases h
      exact ⟨rfl, hc⟩
    · rw [if_neg hc] at h
      exact absurd h docsRetryStage_ne_sheets

lemma sheetsStage_docs {p : String} {dm sm : Option AIMatch} {m : AIMatch}
    (h : sheetsStage p dm sm = .docsAnswer m) :
    docsRetryStage p dm = .docsAnswer m := by
  unfold sheetsStage at h
  cases hsm : sm with
  | none =>
    rw [hsm] at h
    exact h
  | some m2 =>
    rw [hsm] at h
    dsimp only at h
    by_cases hc : m2.confidence > 70
    · rw [if_pos hc] at h
      cases h
    · rw [if_neg hc] at h
      exact h

lemma sheetsStage_accept {p : String} {dm sm : Option AIMatch} {m : AIMatch}
    (hsm : sm = some m) (hc : m.confidence > 70) :
    sheetsStage p dm sm = .sheetsAnswer m := by
  unfold sheetsStage
  rw [hsm]
  dsimp only
  rw [if_pos hc]

lemma sheetsStage_reject {p : String} {dm sm : Option AIMatch}
    (hbelow : ∀ m, sm = some m → m.confidence ≤ 70) :
    sheetsStage p dm sm = docsRetryStage p dm := by
  unfold sheetsStage
  cases hsm : sm with
  | none => rfl
  | some m2 =>
    dsimp only
    rw [if_neg (not_lt.mpr (hbelow m2 hsm))]

/-- C4 — Acceptance in the source-attempt steps is exactly confidence
strictly above the source-specific threshold, in both directions: a
Docs-backed candidate is returned only if it exists with confidence
> 60 and a Sheets-backed candidate only if it exists with confidence
> 70 (soundness); conversely, under either primary source, a candidate
strictly above its threshold is accepted as soon as every earlier
attempt produced no candidate or one at/below its threshold
(completeness), and when every candidate is at or below threshold the
pipeline falls through.  The conjuncts cover every path: docs-primary
docs acceptance, docs-primary sheets acceptance (docs `null` or
rejected), sheets-primary (default) sheets acceptance, sheets-primary
docs acceptance (sheets `null` or rejected), and the fall-through. -/
theorem c4_confidence_thresholds (p : String) (dm sm : Option AIMatch) :
    (∀ m, processMessageDirectCore p dm sm = .docsAnswer m →
      dm = some m ∧ m.confidence > 60) ∧
    (∀ m, processMessageDirectCore p dm sm = .sheetsAnswer m →
      sm = some m ∧ m.confidence > 70) ∧
    (∀ m, p = "docs" → dm = some m → m.confidence > 60 →
      processMessageDirectCore p dm sm = .docsAnswer m) ∧
    (p = "docs" → (∀ m, dm = some m → m.confidence ≤ 60) →
      ∀ m2, sm = some m2 → m2.confidence > 70 →
      processMessageDirectCore p dm sm = .sheetsAnswer m2) ∧
    (¬ p = "docs" → ∀ m, sm = some m → m.confidence > 70 →
      processMessageDirectCore p dm sm = .sheetsAnswer m) ∧
    (¬ p = "docs" → (∀ m, sm = some m → m.confidence ≤ 70) →
      ∀ m2, dm = some m2 → m2.confidence > 60 →
      processMessageDirectCore p dm sm = .docsAnswer m2) ∧
    ((∀ m, dm = some m → m.confidence ≤ 60) →
      (∀ m, sm = some m → m.confidence ≤ 70) →
      processMessageDirectCore p dm sm = .fallbackPath) := by
  refine ⟨?_, ?_, ?_, ?_, ?_, ?_, ?_⟩
  · intro m h
    unfold processMessageDirectCore at h
    by_cases hp : p = "docs"
    · rw [if_pos hp] at h
      cases hdm : dm with
      | none =>
        rw [hdm] at h
        exact docsRetryStage_docs (sheetsStage_docs h)
      | some m2 =>
        rw [hdm] at h
        dsimp only at h
        by_cases hc : m2.confidence > 60
        · rw [if_pos hc] at h
          cases h
          exact ⟨rfl, hc⟩
        · rw [if_neg hc] at h
          exact docsRetryStage_docs (sheetsStage_docs h)
    · rw [if_neg hp] at h
      exact docsRetryStage_docs (sheetsStage_docs h)
  · intro m h
    unfold processMessageDirectCore at h
    by_cases hp : p = "docs"
    · rw [if_pos hp] at h
      cases hdm : dm with
      | none =>
        rw [hdm] at h
        exact sheetsStage_sheets h
      | some m2 =>
        rw [hdm] at h
        dsimp only at h
        by_cases hc : m2.confidence > 60
        · rw [if_pos hc] at h
          cases h
        · rw [if_neg hc] at h
          exact sheetsStage_sheets h
    · rw [if_neg hp] at h
      exact sheetsStage_sheets h
  · intro m hp hdm hc
    unfold processMessageDirectCore
    rw [if_pos hp, hdm]
    dsimp only
    rw [if_pos hc]
  · intro hp hbelow m2 hsm hc2
    unfold processMessageDirectCore
    rw [if_pos hp]
    cases hdm : dm with
    | none => exact sheetsStage_accept hsm hc2
    | some m =>
      dsimp only
      rw [if_neg (not_lt.mpr (hbelow m hdm))]
      exact sheetsStage_accept hsm hc2
  · intro hp m hsm hc
    unfold processMessageDirectCore
    rw [if_neg hp]
    exact sheetsStage_accept hsm hc
  · intro hp hbelow m2 hdm hc2
    unfold processMessageDirectCore
    rw [if_neg hp]
    rw [sheetsStage_reject hbelow]
    exact docsRetryStage_accept hp hdm hc2
  · intro hdlow hslow
    have hrest : sheetsStage p dm sm = .fallbackPath := by
      rw [sheetsStage_reject hslow]
      exact docsRetryStage_reject hdlow
    unfold processMessageDirectCore
    by_cases hp : p = "docs"
    · rw [if_pos hp]
      cases hdm : dm with
      | none =>
        rw [hdm] at hrest
        dsimp only
        exact hrest
      | some m2 =>
        rw [hdm] at hrest
        dsimp only
        rw [if_neg (not_lt.mpr (hdlow m2 hdm))]
        exact hrest
    · rw [if_neg hp]
      exact hrest

/-- Witness for C4: with Docs primary, a Docs candidate at exactly the
threshold (60) is rejected and a Sheets candidate at 71 is accepted;
with Sheets primary, a Sheets candidate at 71 is accepted directly. -/
theorem c4_confidence_thresholds_witness :
    processMessageDirectCore "docs"
        (some { keyword := "k", answer := "a", confidence := 60,
                matchType := "similar" })
        (some { keyword := "k2", answer := "b", confidence := 71,
                matchType := "exact" }) =
      .sheetsAnswer { keyword := "k2", answer := "b", confidence := 71,
                      matchType := "exact" } ∧
    processMessageDirectCore "sheets" none
        (some { keyword := "k2", answer := "b", confidence := 71,
                matchType := "exact" }) =
      .sheetsAnswer { keyword := "k2", answer := "b", confidence := 71,
                      matchType := "exact" } :=
  ⟨(c4_confidence_thresholds "docs" _ _).2.2.2.1 rfl
    (fun m h => by
      cases h
      norm_num)
    { keyword := "k2", answer := "b", confidence := 71, matchType := "exact" }
    rfl (by norm_num),
   (c4_confidence_thresholds "sheets" none _).2.2.2.2.1 (by decide)
    { keyword := "k2", answer := "b", confidence := 71, matchType := "exact" }
    rfl (by norm_num)⟩

/-! ## C5 / C9 — `GoogleSheetsService.findMatchingKeyword`

Full embedding of the four matching passes, including the
word-overlap scoring, the Levenshtein-based fuzzy pass and the
contact-term buckets.  Scores are `ℚ` (JS numbers `1.0`, `0.9`,
`0.4`, `0.3` and `matchCount / totalWords`). -/

/-- JS `\s` character class (whitespace). -/
def isWsChar (c : Char) : Bool := c.isWhitespace

lemma lengthDropWhile_le (p : Char → Bool) (l : List Char) :
    (l.dropWhile p).length ≤ l.length := by
  induction l with
  | nil => simp
  | cons c t ih =>
    simp only [List.dropWhile_cons]
    split
    · exact le_trans ih (by simp)
    · simp

/-- Worker for `split(/\s+/)`: emits the accumulated token at each
maximal whitespace run (so a leading run yields a leading empty token
and a trailing run a trailing one, as in JS). -/
def splitWsGo : List Char → List Char → List (List Char)
  | [], cur => [cur.reverse]
  | c :: rest, cur =>
    if isWsChar c then
      cur.reverse :: splitWsGo (rest.dropWhile isWsChar) []
    else splitWsGo rest (c :: cur)
termination_by l _ => l.length
decreasing_by
  · exact Nat.lt_succ_of_le (lengthDropWhile_le isWsChar rest)
  · exact Nat.lt_succ_of_le (Nat.le_refl rest.length)

/-- JS `message.split(/\s+/)` (note `"".split(/\s+/)` is `[""]`). -/
def jsSplitWs (s : String) : List String :=
  (splitWsGo s.toList []).map String.mk

/-- Inner loop of the Levenshtein row computation: `pRest`/`pDiag`/`pUp`
walk the previous matrix row, `left` is the value just computed. -/
def levRowGo : List Char → List Nat → Nat → Nat → Char → List Nat
  | [], _, _, _, _ => []
  | _ :: _, [], _, _, _ => []
  | c1 :: cs, pUp :: pRest, pDiag, left, c2 =>
    (if c1 == c2 then pDiag else Nat.min pDiag (Nat.min left pUp) + 1) ::
      levRowGo cs pRest pUp
        (if c1 == c2 then pDiag else Nat.min pDiag (Nat.min left pUp) + 1) c2

/-- One row of the dynamic-programming matrix of `levenshteinDistance`
(`matrix[i][0] = i`, then the classic recurrence). -/
def levRow (c2 : Char) (s1 : List Char) (prev : List Nat) : List Nat :=
  match prev with
  | p0 :: pRest => (p0 + 1) :: levRowGo s1 pRest p0 (p0 + 1) c2
  | [] => []

/-- Classic Levenshtein distance, as the matrix recurrence of
`levenshteinDistance(str1, str2)` (rows indexed by `str2`, columns by
`str1`); the result is `matrix[str2.length][str1.length]`. -/
def levenshteinDistance (str1 str2 : String) : Nat :=
  (str2.toList.foldl (fun prev c2 => levRow c2 str1.toList prev)
    (List.range (str1.toList.length + 1))).getLast?.getD 0

/-- JS `calculateSimilarity`: 0 when either string is falsy (empty),
else `(longer.length - editDistance) / longer.length`. -/
def calculateSimilarity (str1 str2 : String) : ℚ :=
  if str1 = "" ∨ str2 = "" then 0
  else
    (if str1.length > str2.length then
      ((str1.length : ℚ) - levenshteinDistance str1 str2) / (str1.length : ℚ)
    else
      ((str2.length : ℚ) - levenshteinDistance str2 str1) / (str2.length : ℚ))

/-- Row of `keywordsData` as built by `loadKeywordsData`
(`keyword = row[0] || ''`, `originalKeyword = row[0] || ''`). -/
structure SheetEntry where
  keyword : String
  answer : String
  originalKeyword : String
deriving DecidableEq, Repr

/-- The `matchType` strings produced by `findMatchingKeyword`. -/
inductive MatchType where
  | exact
  | partialMatch
  | wordMatch
  | fuzzy
  | emailSpecific
  | phoneSpecific
  | contactTerm
deriving DecidableEq, Repr

/-- Result object of `findMatchingKeyword`. -/
structure MatchResult where
  keyword : String
  answer : String
  score : ℚ
  matchType : MatchType
deriving DecidableEq, Repr

/-- First pass of `findMatchingKeyword`: per entry (skipping falsy
keywords), exact equality returns score 1.0 and substring containment in
either direction returns score 0.9 — within the same loop iteration, so
an earlier entry's partial match wins over a later entry's exact match. -/
def firstPass (message : String) : List SheetEntry → Option MatchResult
  | [] => none
  | item :: rest =>
    if item.keyword = "" then firstPass message rest
    else if message = jsNormalize item.keyword then
      some { keyword := item.originalKeyword, answer := item.answer,
             score := 1, matchType := .exact }
    else if strIncludes message (jsNormalize item.keyword) ||
        strIncludes (jsNormalize item.keyword) message then
      some { keyword := item.originalKeyword, answer := item.answer,
             score := 9/10, matchType := .partialMatch }
    else firstPass message rest

/-- Word comparison of the second pass (with `break` after the first
keyword word that matches a message word). -/
def wordPairMatches (messageWord keywordWord : String) : Bool :=
  messageWord = keywordWord || strIncludes messageWord keywordWord ||
    strIncludes keywordWord messageWord

/-- Number of message words matching some keyword word. -/
def countWordMatches (messageWords keywordWords : List String) : Nat :=
  (messageWords.filter
    (fun mw => keywordWords.any (fun kw => wordPairMatches mw kw))).length

/-- Second pass: word-overlap scoring
`matchCount / max(messageWords, keywordWords)`, keeping the best score
that is `≥ threshold` and strictly improves on the previous best. -/
def secondPass (threshold : ℚ) (messageWords : List String)
    (entries : List SheetEntry) : Option MatchResult × ℚ :=
  entries.foldl (fun acc item =>
    if item.keyword = "" then acc
    else
      if (countWordMatches messageWords (jsSplitWs (jsNormalize item.keyword)) : ℚ) /
            ((max messageWords.length
              (jsSplitWs (jsNormalize item.keyword)).length : Nat) : ℚ) ≥ threshold ∧
          (countWordMatches messageWords (jsSplitWs (jsNormalize item.keyword)) : ℚ) /
            ((max messageWords.length
              (jsSplitWs (jsNormalize item.keyword)).length : Nat) : ℚ) > acc.2 then
        (some { keyword := item.originalKeyword, answer := item.answer,
                score := (countWordMatches messageWords
                    (jsSplitWs (jsNormalize item.keyword)) : ℚ) /
                  ((max messageWords.length
                    (jsSplitWs (jsNormalize item.keyword)).length : Nat) : ℚ),
                matchType := .wordMatch },
         (countWordMatches messageWords (jsSplitWs (jsNormalize item.keyword)) : ℚ) /
           ((max messageWords.length
             (jsSplitWs (jsNormalize item.keyword)).length : Nat) : ℚ))
      else acc) (none, 0)

/-- Third pass (runs only when the second found nothing): any message
word / keyword word pair with `calculateSimilarity ≥ 0.6` proposes the
fixed score 0.4, accepted only when it strictly beats the best so far
(so the first fuzzy hit in iteration order wins). -/
def thirdPass (messageWords : List String) (entries : List SheetEntry)
    (acc : Option MatchResult × ℚ) : Option MatchResult × ℚ :=
  entries.foldl (fun acc2 item =>
    if item.keyword = "" then acc2
    else
      messageWords.foldl (fun acc3 mw =>
        (jsSplitWs (jsNormalize item.keyword)).foldl (fun acc4 kw =>
          if calculateSimilarity mw kw ≥ 6/10 then
            if (4/10 : ℚ) > acc4.2 then
              (some { keyword := item.originalKeyword, answer := item.answer,
                      score := 4/10, matchType := .fuzzy }, 4/10)
            else acc4
          else acc4) acc3) acc2) acc

/-- Email bucket terms of the fourth pass. -/
def emailTerms : List String := ["อีเมล", "email", "e-mail", "เมล"]

/-- Phone bucket terms of the fourth pass. -/
def phoneTerms : List String := ["เบอร์", "โทร", "เบอร์โทร", "phone", "tel"]

/-- Contact bucket terms of the fourth pass. -/
def contactTerms : List String := ["ติดต่อ", "ข้อมูล", "contact"]

/-- Scan for the first entry (skipping falsy keywords) whose normalized
keyword satisfies the bucket predicate. -/
def findFirstWith (pred : String → Bool) (mt : MatchType) (score : ℚ) :
    List SheetEntry → Option MatchResult
  | [] => none
  | item :: rest =>
    if item.keyword = "" then findFirstWith pred mt score rest
    else if pred (jsNormalize item.keyword) then
      some { keyword := item.originalKeyword, answer := item.answer,
             score := score, matchType := mt }
    else findFirstWith pred mt score rest

/-- Fourth pass: email, phone and contact buckets, each returning
directly on its first hit (scores 0.4, 0.4, 0.3). -/
def fourthPass (message : String) (entries : List SheetEntry) :
    Option MatchResult :=
  match (if emailTerms.any (fun t => strIncludes message t) then
      findFirstWith (fun kw => strIncludes kw "อีเมล" || strIncludes kw "email")
        .emailSpecific (4/10) entries
    else none) with
  | some r => some r
  | none =>
    match (if phoneTerms.any (fun t => strIncludes message t) then
        findFirstWith (fun kw => strIncludes kw "เบอร์" || strIncludes kw "โทร")
          .phoneSpecific (4/10) entries
      else none) with
    | some r => some r
    | none =>
      if contactTerms.any (fun t => strIncludes message t) then
        findFirstWith (fun kw => contactTerms.any (fun t => strIncludes kw t))
          .contactTerm (3/10) entries
      else none

/-- Full `findMatchingKeyword(userMessage, threshold)`. -/
def findMatchingKeyword (entries : List SheetEntry) (userMessage : String)
    (threshold : ℚ) : Option MatchResult :=
  if entries.length = 0 then none
  else
    match firstPass (jsNormalize userMessage) entries with
    | some r => some r
    | none =>
      match (if (secondPass threshold (jsSplitWs (jsNormalize userMessage))
            entries).1.isNone then
          thirdPass (jsSplitWs (jsNormalize userMessage)) entries
            (secondPass threshold (jsSplitWs (jsNormalize userMessage)) entries)
        else
          secondPass threshold (jsSplitWs (jsNormalize userMessage)) entries).1 with
      | some r => some r
      | none => fourthPass (jsNormalize userMessage) entries

lemma eq_empty_of_toList_nil {s : String} (h : s.toList = []) : s = "" := by
  cases s with
  | mk data =>
    simp [String.toList] at h
    subst h
    rfl

lemma toList_empty : ("" : String).toList = [] := rfl

lemma strIncludes_empty_needle (s : String) : strIncludes s "" = true := by
  unfold strIncludes containsSub
  simp [toList_empty, isPrefixList]

lemma strIncludes_empty_hay {needle : String} (h : needle ≠ "") :
    strIncludes "" needle = false := by
  unfold strIncludes containsSub
  cases hn : needle.toList with
  | nil => exact absurd (eq_empty_of_toList_nil hn) h
  | cons c cs => simp [toList_empty, isPrefixList]

/-- Sample entry whose keyword partially matches the message "abc". -/
def entryAB : SheetEntry := { keyword := "ab", answer := "A", originalKeyword := "ab" }

/-- Sample entry whose keyword exactly equals the message "abc". -/
def entryABC : SheetEntry := { keyword := "abc", answer := "B", originalKeyword := "abc" }

/-- C5 counterexample — an entry whose normalized keyword equals the
normalized message does not win with score 1.0 when an earlier entry
partially matches: with keywords `["ab", "abc"]` and message `"abc"`,
the first pass returns the earlier entry `"ab"` with score 0.9
(`matchType` partial), because exact and partial matching are tested
entry by entry inside one loop. -/
theorem c5_shadowed_exact_counterexample :
    (entryABC ∈ [entryAB, entryABC] ∧ entryABC.keyword ≠ "" ∧
      jsNormalize entryABC.keyword = jsNormalize "abc") ∧
    findMatchingKeyword [entryAB, entryABC] "abc" (6/10) =
      some { keyword := "ab", answer := "A", score := 9/10,
             matchType := .partialMatch } ∧
    ((9 : ℚ)/10 ≠ 1 ∧ MatchType.partialMatch ≠ .exact ∧
      ("ab" : String) ≠ "abc") := by
  refine ⟨⟨by decide, by decide, by decide⟩, rfl, by norm_num, by decide,
    by decide⟩

/-- C5 amended — normalized-equality gives score 1.0 provided no earlier
entry matches first: if every earlier entry with a non-empty keyword
neither equals the normalized message nor contains it nor is contained
in it, then `findMatchingKeyword` returns the exactly-matching entry
with score 1.0 and `matchType` exact. -/
theorem c5_exact_match_amended (pre post : List SheetEntry) (e : SheetEntry)
    (msg : String) (t : ℚ)
    (hpre : ∀ e2 ∈ pre, e2.keyword ≠ "" →
      (jsNormalize msg ≠ jsNormalize e2.keyword ∧
       strIncludes (jsNormalize msg) (jsNormalize e2.keyword) = false ∧
       strIncludes (jsNormalize e2.keyword) (jsNormalize msg) = false))
    (hk : e.keyword ≠ "")
    (heq : jsNormalize e.keyword = jsNormalize msg) :
    findMatchingKeyword (pre ++ e :: post) msg t =
      some { keyword := e.originalKeyword, answer := e.answer, score := 1,
             matchType := .exact } := by
  have hfp : firstPass (jsNormalize msg) (pre ++ e :: post) =
      some { keyword := e.originalKeyword, answer := e.answer, score := 1,
             matchType := .exact } := by
    induction pre with
    | nil =>
      simp only [List.nil_append]
      unfold firstPass
      rw [if_neg hk, if_pos heq.symm]
    | cons a pre ih =>
      have hih : firstPass (jsNormalize msg) (pre ++ e :: post) =
          some { keyword := e.originalKeyword, answer := e.answer, score := 1,
                 matchType := .exact } :=
        ih (fun e2 he2 => hpre e2 (List.mem_cons_of_mem a he2))
      simp only [List.cons_append]
      by_cases hak : a.keyword = ""
      · unfold firstPass
        rw [if_pos hak]
        exact hih
      · obtain ⟨hne, hi1, hi2⟩ := hpre a (List.mem_cons_self a pre) hak
        unfold firstPass
        rw [if_neg hak, if_neg hne, if_neg (by simp [hi1, hi2])]
        exact hih
  unfold findMatchingKeyword
  rw [if_neg (by simp), hfp]

/-- Witness for the amended C5: with keywords `["xy", "ABC"]` (no
earlier partial match) the message `"abc"` returns the `"ABC"` entry
with score 1.0 after case normalization. -/
theorem c5_exact_match_amended_witness :
    findMatchingKeyword
        [{ keyword := "xy", answer := "Z", originalKeyword := "xy" },
         { keyword := "ABC", answer := "B", originalKeyword := "ABC" }]
        "abc" (6/10) =
      some { keyword := "ABC", answer := "B", score := 1,
             matchType := .exact } :=
  c5_exact_match_amended
    [{ keyword := "xy", answer := "Z", originalKeyword := "xy" }] []
    { keyword := "ABC", answer := "B", originalKeyword := "ABC" }
    "abc" (6/10) (by decide) (by decide) (by decide)

/-- Entry whose keyword is whitespace only (truthy in JS, empty once
normalized). -/
def entrySpace : SheetEntry := { keyword := " ", answer := "A", originalKeyword := " " }

/-- C9 counterexample — for an empty-normalizing message the claim
promises the first non-empty-keyword entry with score 0.9 and
`matchType` partial, but a whitespace-only keyword (non-empty, hence not
skipped) normalizes to the empty string and exact-matches the empty
message: the result has score 1.0 and `matchType` exact. -/
theorem c9_empty_message_counterexample :
    entrySpace.keyword ≠ "" ∧
    jsNormalize "" = "" ∧
    findMatchingKeyword [entrySpace] "" (6/10) =
      some { keyword := " ", answer := "A", score := 1, matchType := .exact } ∧
    ((1 : ℚ) ≠ 9/10 ∧ MatchType.exact ≠ .partialMatch) := by
  refine ⟨by decide, by decide, rfl, by norm_num, by decide⟩

/-- C9 amended — for a message normalizing to the empty string,
`findMatchingKeyword` returns the first entry whose keyword is non-empty
(never `none`): with score 0.9 and `matchType` partial when that
keyword's normalization is non-empty (every keyword contains the empty
message), but with score 1.0 and `matchType` exact when the keyword is
whitespace-only and so also normalizes to the empty string. -/
theorem c9_empty_message_amended (pre post : List SheetEntry) (e : SheetEntry)
    (msg : String) (t : ℚ)
    (hpre : ∀ e2 ∈ pre, e2.keyword = "")
    (hk : e.keyword ≠ "")
    (hmsg : jsNormalize msg = "") :
    findMatchingKeyword (pre ++ e :: post) msg t =
      (if jsNormalize e.keyword = "" then
        some { keyword := e.originalKeyword, answer := e.answer, score := 1,
               matchType := .exact }
      else
        some { keyword := e.originalKeyword, answer := e.answer, score := 9/10,
               matchType := .partialMatch }) := by
  have hfp : firstPass (jsNormalize msg) (pre ++ e :: post) =
      (if jsNormalize e.keyword = "" then
        some { keyword := e.originalKeyword, answer := e.answer, score := 1,
               matchType := .exact }
      else
        some { keyword := e.originalKeyword, answer := e.answer, score := 9/10,
               matchType := .partialMatch }) := by
    induction pre with
    | nil =>
      simp only [List.nil_append]
      unfold firstPass
      rw [hmsg]
      by_cases hek : jsNormalize e.keyword = ""
      · rw [if_neg hk, if_pos hek.symm, if_pos hek]
      · rw [if_neg hk, if_neg (fun hcontr => hek hcontr.symm),
            if_pos (by simp [strIncludes_empty_needle]), if_neg hek]
    | cons a pre ih =>
      simp only [List.cons_append]
      unfold firstPass
      rw [if_pos (hpre a (List.mem_cons_self a pre))]
      exact ih (fun e2 he2 => hpre e2 (List.mem_cons_of_mem a he2))
  unfold findMatchingKeyword
  rw [if_neg (by simp), hfp]
  by_cases hek : jsNormalize e.keyword = ""
  · rw [if_pos hek]
  · rw [if_neg hek]

/-- Witness for the amended C9: a whitespace-only message against the
keyword list `["x"]` returns the `"x"` entry with score 0.9 (partial). -/
theorem c9_empty_message_amended_witness :
    findMatchingKeyword
        [{ keyword := "x", answer := "A", originalKeyword := "x" }]
        "  " (6/10) =
      some { keyword := "x", answer := "A", score := 9/10,
             matchType := .partialMatch } := by
  have h := c9_empty_message_amended []
    [] { keyword := "x", answer := "A", originalKeyword := "x" } "  " (6/10)
    (by intro e2 he2; cases he2) (by decide) (by decide)
  rw [if_neg (by decide)] at h
  simpa using h

/-! ## C8 — `formatClickableLinks`

A small backtracking matcher for the four regexes of
`formatClickableLinks` (each is a concatenation of literals and greedy
character-class repetitions), with JS `String.replace(/…/g, fn)`
semantics: scan left to right, match greedily with backtracking at each
position, emit the replacement and continue after the match. -/

/-- Regex fragment: a literal string, a greedy repetition of a character
class with a minimum and optional maximum count, or concatenation. -/
inductive RE where
  | lit (s : List Char)
  | cls (p : Char → Bool) (mn : Nat) (mx : Option Nat)
  | cat (a b : RE)

/-- Length of the maximal run of leading characters in the class. -/
def takeCount (p : Char → Bool) : List Char → Nat
  | [] => 0
  | c :: t => if p c then takeCount p t + 1 else 0

/-- Greedy repetition: try consuming `i` characters, then `i - 1`, down
to `mn`, first success of the continuation wins. -/
def clsTry (k : List Char → Option (List Char)) (input : List Char)
    (mn : Nat) : Nat → Option (List Char)
  | 0 => if mn = 0 then k input else none
  | i + 1 =>
    if i + 1 < mn then none
    else
      match k (input.drop (i + 1)) with
      | some r => some r
      | none => clsTry k input mn i

/-- Backtracking matcher in continuation style: `k` receives the
remainder after this fragment; alternatives are tried in the greedy
preference order of the JS engine. -/
def matchK : RE → List Char → (List Char → Option (List Char)) →
    Option (List Char)
  | .lit s, input, k =>
    if isPrefixList s input then k (input.drop s.length) else none
  | .cls p mn mx, input, k =>
    clsTry k input mn
      (match mx with
       | none => takeCount p input
       | some m => Nat.min (takeCount p input) m)
  | .cat a b, input, k => matchK a input (fun r => matchK b r k)

/-- Anchored match at the start of `input`: number of characters the
regex consumes, or `none`. -/
def reMatch (re : RE) (input : List Char) : Option Nat :=
  match matchK re input some with
  | some rem => some (input.length - rem.length)
  | none => none

/-- Worker for the global replace; `fuel` bounds the recursion (always
called with `fuel = input.length`, which suffices since every step
consumes at least one character). -/
def replaceGo (re : RE) (wrap : List Char → List Char) :
    Nat → List Char → List Char
  | 0, l => l
  | _ + 1, [] => []
  | fuel + 1, c :: rest =>
    match reMatch re (c :: rest) with
    | some n =>
      if n = 0 then c :: replaceGo re wrap fuel rest
      else
        wrap ((c :: rest).take n) ++ replaceGo re wrap fuel ((c :: rest).drop n)
    | none => c :: replaceGo re wrap fuel rest

/-- JS `text.replace(regex-with-g, fn)`. -/
def replaceG (re : RE) (wrap : List Char → List Char) (l : List Char) :
    List Char :=
  replaceGo re wrap l.length l

/-- The replacement callback: builds the markdown link
`[match](prefix match)`. -/
def mdLink (linkPrefix : String) (m : List Char) : List Char :=
  ('[' :: m) ++ ']' :: '(' :: (linkPrefix.toList ++ m) ++ [')']

/-- JS `\d`. -/
def isDigitCh (c : Char) : Bool := c.isDigit

/-- JS `[a-zA-Z0-9._%+-]` (email local part). -/
def isEmailLocalCh (c : Char) : Bool :=
  c.isAlpha || c.isDigit || c = '.' || c = '_' || c = '%' || c = '+' || c = '-'

/-- JS `[a-zA-Z0-9.-]` (domain). -/
def isDomainCh (c : Char) : Bool :=
  c.isAlpha || c.isDigit || c = '.' || c = '-'

/-- JS `[a-zA-Z]`. -/
def isAlphaCh (c : Char) : Bool := c.isAlpha

/-- JS `[a-zA-Z0-9._-]` (Facebook path). -/
def isFbPathCh (c : Char) : Bool :=
  c.isAlpha || c.isDigit || c = '.' || c = '_' || c = '-'

/-- Phone regex `(\d{2,3}-\d{3,4}-\d{4})`. -/
def phoneRE : RE :=
  .cat (.cls isDigitCh 2 (some 3))
    (.cat (.lit ['-'])
      (.cat (.cls isDigitCh 3 (some 4))
        (.cat (.lit ['-']) (.cls isDigitCh 4 (some 4)))))

/-- Email regex `([a-zA-Z0-9._%+-]+@[a-zA-Z0-9.-]+\.[a-zA-Z]{2,})`. -/
def emailRE : RE :=
  .cat (.cls isEmailLocalCh 1 none)
    (.cat (.lit ['@'])
      (.cat (.cls isDomainCh 1 none)
        (.cat (.lit ['.']) (.cls isAlphaCh 2 none))))

/-- URL regex `(www\.[a-zA-Z0-9.-]+\.[a-zA-Z]{2,})`. -/
def wwwRE : RE :=
  .cat (.lit "www.".toList)
    (.cat (.cls isDomainCh 1 none)
      (.cat (.lit ['.']) (.cls isAlphaCh 2 none)))

/-- Facebook regex `(www\.facebook\.com\/[a-zA-Z0-9._-]+)`. -/
def fbRE : RE :=
  .cat (.lit "www.facebook.com/".toList) (.cls isFbPathCh 1 none)

/-- Guard string of the phone pass. -/
def telGuard : List Char := "](tel:".toList

/-- Guard string of the email pass. -/
def mailtoGuard : List Char := "](mailto:".toList

/-- Guard string of the URL pass. -/
def httpsGuard : List Char := "](https://".toList

/-- Guard string of the Facebook pass. -/
def fbGuard : List Char := "](https://www.facebook.com".toList

/-- Phone pass: skipped entirely when the text already contains
`](tel:` anywhere. -/
def phonePass (l : List Char) : List Char :=
  if containsSub l telGuard then l else replaceG phoneRE (mdLink "tel:") l

/-- Email pass, guarded by `](mailto:`. -/
def emailPass (l : List Char) : List Char :=
  if containsSub l mailtoGuard then l else replaceG emailRE (mdLink "mailto:") l

/-- URL pass, guarded by `](https://`. -/
def wwwPass (l : List Char) : List Char :=
  if containsSub l httpsGuard then l else replaceG wwwRE (mdLink "https://") l

/-- Facebook pass, guarded by `](https://www.facebook.com`. -/
def fbPass (l : List Char) : List Char :=
  if containsSub l fbGuard then l else replaceG fbRE (mdLink "https://") l

/-- Full `formatClickableLinks` (the `!text` early return models the
empty string; non-string inputs do not arise). -/
def formatClickableLinks (text : String) : String :=
  if text = "" then text
  else String.mk (fbPass (wwwPass (emailPass (phonePass text.toList))))

/-- Input already containing one wrapped phone link plus a second,
plain phone number. -/
def c8NegInput : String := "[02-123-4567](tel:02-123-4567) 03-234-5678"

/-- C8 counterexample — the double-wrap guard is per-text, not
per-occurrence: a text that already contains `](tel:` (one wrapped
phone number) has its phone pass skipped entirely, so the second, plain
phone number `03-234-5678` is left unwrapped, contradicting "no plain
occurrence is left unwrapped". -/
theorem c8_plain_occurrence_left_unwrapped :
    formatClickableLinks c8NegInput = c8NegInput ∧
    strIncludes c8NegInput "03-234-5678" = true ∧
    strIncludes (formatClickableLinks c8NegInput)
      "[03-234-5678](tel:03-234-5678)" = false := by
  refine ⟨rfl, by decide, by decide⟩

/-- C8 amended — each category's rewrite runs only when the text does
not already contain that category's link syntax: a text containing
`](tel:`, `](mailto:`, `](https://` and `](https://www.facebook.com`
is returned completely unchanged (so existing links are never
double-wrapped, but additional plain occurrences in such a text stay
unwrapped, as the counterexample shows); when no link syntax is
present, every phone, email and www occurrence is wrapped exactly once,
as on the concrete text below. -/
theorem c8_guarded_link_formatting :
    (∀ t : String,
      containsSub t.toList telGuard = true →
      containsSub t.toList mailtoGuard = true →
      containsSub t.toList httpsGuard = true →
      containsSub t.toList fbGuard = true →
      formatClickableLinks t = t) ∧
    formatClickableLinks "02-123-4567 a@b.co www.x.co" =
      "[02-123-4567](tel:02-123-4567) [a@b.co](mailto:a@b.co) [www.x.co](https://www.x.co)" := by
  constructor
  · intro t h1 h2 h3 h4
    have ht : ¬ t = "" := by
      intro hcontr
      rw [hcontr] at h1
      exact absurd h1 (by decide)
    unfold formatClickableLinks phonePass emailPass wwwPass fbPass
    rw [if_neg ht, if_pos h1, if_pos h2, if_pos h3, if_pos h4]
    cases t with
    | mk data => rfl
  · rfl

/-- Witness for the amended C8: a concrete text containing all four
link-syntax markers is returned unchanged. -/
theorem c8_guarded_link_formatting_witness :
    formatClickableLinks
        "[a](tel:1) [b](mailto:x) [c](https://www.facebook.com/y)" =
      "[a](tel:1) [b](mailto:x) [c](https://www.facebook.com/y)" :=
  c8_guarded_link_formatting.1
    "[a](tel:1) [b](mailto:x) [c](https://www.facebook.com/y)"
    (by decide) (by decide) (by decide) (by decide)
